import Mathlib

/-!
Verification of the butido job-DAG orchestrator core.

Shallow embedding of:
  - `Orchestrator::run_tree` (src/orchestrator/orchestrator.rs): channel wiring,
    root identification, final root-message collection;
  - `JobTask::run` / `JobTask::perform_receive` (same file): dependency receive
    loop, artifact-reuse pipeline, dispatch, send policy;
  - `EndpointScheduler::select_free_endpoint` (src/endpoint/scheduler.rs);
  - `PackageVersionConstraint::matches` (src/package/util.rs);
  - `DbConnectionConfig` Debug / Into<String> (src/db/connection.rs).

Uuids are modelled as `Nat`, `ArtifactPath` and error objects as `String`,
`HashMap` as an association list with insert-or-replace semantics.
-/

/-- Rust `Vec::collect::<Result<Vec<_>>>` over a mapped iterator: apply `f` to
each element left to right, stopping at the first error. -/
def mapME (f : α → Except ε β) : List α → Except ε (List β)
  | [] => .ok []
  | x :: xs =>
    match f x with
    | .error e => .error e
    | .ok y =>
      match mapME f xs with
      | .error e => .error e
      | .ok ys => .ok (y :: ys)

/-- Insert `x` into a list sorted ascending w.r.t. the strict comparison `lt`,
after all elements `y` with `lt y x` (so the resulting sort is stable). -/
def insertSorted (lt : α → α → Bool) (x : α) : List α → List α
  | [] => [x]
  | y :: ys => if lt y x then y :: insertSorted lt x ys else x :: y :: ys

/-- Stable ascending sort by the strict comparison `lt`; models itertools
`sorted_by(cmp)` (a stable sort) where `lt a b` holds iff `cmp(a, b)` is
`Ordering::Less`. -/
def sortedBy (lt : α → α → Bool) : List α → List α
  | [] => []
  | x :: xs => insertSorted lt x (sortedBy lt xs)

/-- First element of a list that is minimal w.r.t. `lt` (earlier elements win
ties): the head of the stable ascending sort. -/
def firstByLt (lt : α → α → Bool) : List α → Option α
  | [] => none
  | x :: xs =>
    match firstByLt lt xs with
    | none => some x
    | some q => if lt q x then some q else some x

/-- `HashMap::insert` on an association-list model: replace the value if the
key is present, else append the binding. -/
def insertA (m : List (Nat × α)) (k : Nat) (v : α) : List (Nat × α) :=
  if m.any (fun p => p.1 == k) then m.map (fun p => if p.1 == k then (k, v) else p)
  else m ++ [(k, v)]

/-- `HashMap::extend` on the association-list model. -/
def extendA (m : List (Nat × α)) (v : List (Nat × α)) : List (Nat × α) :=
  v.foldl (fun acc p => insertA acc p.1 p.2) m

/-- `type JobResult = Result<HashMap<Uuid, Vec<ArtifactPath>>, HashMap<Uuid, Error>>`,
the message type flowing over the inter-task channels. -/
inductive Msg where
  | ok (m : List (Nat × List String))
  | err (m : List (Nat × String))
deriving DecidableEq

/-- The final `match root_receiver.recv().await` of `Orchestrator::run_tree`:
`None` is a fatal error, `Some(Ok(results))` flattens the map values and pairs
them with an empty error map, `Some(Err(errors))` yields no artifacts and the
error map. -/
def runTreeCollect (msg : Option Msg) : Except String (List String × List (Nat × String)) :=
  match msg with
  | none => .error ("No result received...")
  | some (Msg.ok results) => .ok ((results.map (fun tpl => tpl.2)).flatten, [])
  | some (Msg.err errors) => .ok ([], errors)

/-! ## PackageVersionConstraint (src/package/util.rs) -/

/-- `enum PackageVersionMatch { True, False, Undecided }`. -/
inductive PackageVersionMatch where
  | vTrue
  | vFalse
  | vUndecided
deriving DecidableEq

/-- `impl From<bool> for PackageVersionMatch`. -/
def packageVersionMatchFrom (b : Bool) : PackageVersionMatch :=
  if b then .vTrue else .vFalse

/-- `enum PackageVersionConstraint`; `PackageVersion` is modelled as `String`
(it is a newtype over `String` in the source). -/
inductive PackageVersionConstraint where
  | any
  | latest
  | lowerAs (v : String)
  | higherAs (v : String)
  | inRange (v1 v2 : String)
  | exact (v : String)

/-- Outcome of running a Rust function returning `Result<PackageVersionMatch>`
that may also hit an `unimplemented!()` panic. -/
inductive MatchComputation where
  | returns (r : Except String PackageVersionMatch)
  | unimplementedPanic

/-- `PackageVersionConstraint::matches` from src/package/util.rs: `Any` and
`Latest` and `Exact` return `Ok(..)`; `LowerAs`, `HigherAs`, `InRange` hit
`unimplemented!()`. -/
def PackageVersionConstraint.matches : PackageVersionConstraint → String → MatchComputation
  | .any, _ => .returns (.ok .vTrue)
  | .latest, _ => .returns (.ok .vUndecided)
  | .lowerAs _, _ => .unimplementedPanic
  | .higherAs _, _ => .unimplementedPanic
  | .inRange _ _, _ => .unimplementedPanic
  | .exact w, v => .returns (.ok (packageVersionMatchFrom (v == w)))

/-! ## DbConnectionConfig (src/db/connection.rs) -/

/-- `struct DbConnectionConfig`, five `String` fields. -/
structure DbConnectionConfig where
  database_host : String
  database_port : String
  database_user : String
  database_password : String
  database_name : String
deriving DecidableEq

/-- `impl Into<String> for DbConnectionConfig`: the connection URI,
`postgres://{user}:{password}@{host}:{port}/{name}`. -/
def intoConnectionString (c : DbConnectionConfig) : String :=
  "postgres://" ++ c.database_user ++ ":" ++ c.database_password ++ "@" ++
    c.database_host ++ ":" ++ c.database_port ++ "/" ++ c.database_name

/-- `impl Debug for DbConnectionConfig`: the same URI shape but with the
literal text `PASSWORD` in the password position. -/
def debugFormat (c : DbConnectionConfig) : String :=
  "postgres://" ++ c.database_user ++ ":PASSWORD@" ++
    c.database_host ++ ":" ++ c.database_port ++ "/" ++ c.database_name

/-- Replace only the `database_password` field. -/
def withPassword (c : DbConnectionConfig) (p : String) : DbConnectionConfig :=
  { c with database_password := p }

/-! ## Artifact-reuse pipeline (JobTask::run, orchestrator.rs lines 559-588) -/

/-- A catalog candidate as returned by `find_artifacts`: a full artifact path.
It carries the root of the store the path resides under and the bare artifact
name (`artifact_path()`); the metadata component of the source tuple is unused
by the pipeline and omitted. -/
structure FullArtifactPath where
  storeRoot : Nat
  name : String
deriving DecidableEq

/-- An artifact store: its filesystem root and its name-indexed entries. -/
structure Store where
  root : Nat
  entries : List (String × String)
deriving DecidableEq

/-- Modelled from the spec: `ArtifactPath` "can be asked ... whether it
currently resides inside a given store" (the implementation of
`is_in_staging_store` is not under src/). A path resides in a store iff it
lies under that store's root. -/
def FullArtifactPath.isInStagingStore (p : FullArtifactPath) (s : Store) : Bool :=
  p.storeRoot == s.root

/-- Modelled from the spec: `Store.get(name) → Option<ArtifactPath>` (the
store implementation is not under src/). -/
def storeGet (s : Store) (n : String) : Option String :=
  (s.entries.find? (fun e => e.1 == n)).map (fun e => e.2)

/-- The comparator passed to `sorted_by` in JobTask::run:
`r1.cmp(&r2)` on the two `is_in_staging_store` booleans; it is `Less` exactly
when `r1` is `false` and `r2` is `true`. -/
def stagingSortLt (staging : Store) (p1 p2 : FullArtifactPath) : Bool :=
  !(p1.isInStagingStore staging) && p2.isInStagingStore staging

/-- itertools `unique_by(|tpl| tpl.0.artifact_path())`: keep the first
occurrence of each artifact name. -/
def uniqueByName : List FullArtifactPath → List String → List FullArtifactPath
  | [], _ => []
  | x :: xs, seen =>
    if seen.contains x.name then uniqueByName xs seen
    else x :: uniqueByName xs (x.name :: seen)

/-- The reuse pipeline of JobTask::run: sort the catalog candidates by the
`is_in_staging_store` flag with `r1.cmp(&r2)`, deduplicate by artifact name
keeping the first occurrence, then resolve each name against the staging
store first and the release store second, dropping unresolved names. -/
def replacementArtifacts (cands : List FullArtifactPath) (staging release : Store) :
    List String :=
  (uniqueByName (sortedBy (stagingSortLt staging) cands) []).filterMap
    (fun fp =>
      match storeGet staging fp.name with
      | some ap => some ap
      | none => storeGet release fp.name)

/-! ## JobTask (orchestrator.rs lines 458-710) -/

/-- Static data of one JobTask: the job's uuid, its dependency uuids, and the
number of outbound senders (`self.sender.len()`). -/
structure JobTaskModel where
  uuid : Nat
  deps : List Nat
  nSenders : Nat

/-- The helper closure `all_dependencies_are_in` of JobTask::run. -/
def allDependenciesAreIn (deps : List Nat) (rd : List (Nat × List String)) : Bool :=
  deps.all (fun u => rd.any (fun p => p.1 == u))

/-- Result of the receive loop of JobTask::run. -/
inductive RecvOutcome where
  | fatalMissing (missing : List Nat)
  | errsToParent (re : List (Nat × String))
  | ready (rd : List (Nat × List String))
deriving DecidableEq

/-- The `while !all_dependencies_are_in(..)` receive loop of JobTask::run
together with `perform_receive`: messages are drained in order from the
channel (modelled as the list `msgs`); `Ok` maps extend `rd`, `Err` maps
extend `re`; after every received message a non-empty `re` stops the task
(errors are forwarded); a closed channel with unmet dependencies is fatal. -/
def receiveLoop (deps : List Nat) :
    List Msg → List (Nat × List String) → List (Nat × String) → RecvOutcome
  | msgs, rd, re =>
    if allDependenciesAreIn deps rd then .ready rd
    else
      match msgs with
      | [] =>
        let received := rd.map (fun p => p.1)
        let missing := deps.filter (fun d => !(received.contains d))
        if missing.isEmpty then .ready rd else .fatalMissing missing
      | (Msg.ok v) :: rest =>
        let rd := extendA rd v
        if !(List.isEmpty re) then .errsToParent re else receiveLoop deps rest rd re
      | (Msg.err e) :: rest =>
        let re := extendA re e
        if !(List.isEmpty re) then .errsToParent re else receiveLoop deps rest rd re

/-- The messages with which a JobTask finishes its progress bar. -/
inductive BarMessage where
  | stoppingChildErrors
  | reusingArtifact
deriving DecidableEq

/-- Observable outcome of one JobTask::run: the messages it sent (as pairs of
outbound-sender index and message), its own return value, whether
`schedule_job` was invoked, and how it finished its progress bar. -/
structure TaskOutput where
  sends : List (Nat × Msg)
  ret : Except String Unit
  scheduled : Bool
  barFinish : Option BarMessage

/-- Shallow embedding of JobTask::run. Inputs beyond the channel messages:
`findRes` is the result of the `crate::db::find_artifacts` catalog query,
`staging`/`release` the two stores read under the lock, `build` the result of
`RunnableJob::build_from_job`, and `sched` the combined result of
`schedule_job(..).await?.run().await?` — the outer `Except` covers errors of
`schedule_job` and of the handle's outer result (propagated with `?`), the
inner one the job error reported by the endpoint driver. -/
def jobTaskRun (t : JobTaskModel) (msgs : List Msg)
    (findRes : Except String (List FullArtifactPath)) (staging release : Store)
    (build : Except String Unit)
    (sched : Except String (Except String (List String))) : TaskOutput :=
  match receiveLoop t.deps msgs [] [] with
  | .fatalMissing missing =>
      { sends := [], scheduled := false, barFinish := none,
        ret := .error ("Childs finished, but dependencies still missing: " ++ toString missing) }
  | .errsToParent re =>
      { sends := [(0, Msg.err re)], ret := .ok (), scheduled := false,
        barFinish := some .stoppingChildErrors }
  | .ready rd =>
    match findRes with
    | .error e => { sends := [], ret := .error e, scheduled := false, barFinish := none }
    | .ok cands =>
      let artifacts := replacementArtifacts cands staging release
      if !(List.isEmpty artifacts) then
        let rd := insertA rd t.uuid artifacts
        { sends := (List.range t.nSenders).map (fun i => (i, Msg.ok rd)),
          ret := .ok (), scheduled := false, barFinish := some .reusingArtifact }
      else
        match build with
        | .error e => { sends := [], ret := .error e, scheduled := false, barFinish := none }
        | .ok _ =>
          match sched with
          | .error e => { sends := [], ret := .error e, scheduled := true, barFinish := none }
          | .ok (.error e) =>
              { sends := [(0, Msg.err (insertA [] t.uuid e))], ret := .ok (),
                scheduled := true, barFinish := none }
          | .ok (.ok arts) =>
              let rd := insertA rd t.uuid arts
              { sends := (List.range t.nSenders).map (fun i => (i, Msg.ok rd)),
                ret := .ok (), scheduled := true, barFinish := none }

/-! ## Channel wiring (Orchestrator::run_tree, orchestrator.rs lines 236-342) -/

/-- A job as seen by the wiring stage: its uuid, its package name and
version (used in the self-dependency error), and its dependency uuids. -/
structure WJob where
  uuid : Nat
  name : String
  version : String
  dependencies : List Nat
deriving DecidableEq

/-- A sender handle collected during wiring: either the sender feeding the
task of job `u`, or the distinguished root sender. -/
inductive SenderRef where
  | toJob (u : Nat)
  | toRoot
deriving DecidableEq

/-- Errors produced by the wiring stage of run_tree: the
"Package does depend on itself: {name} {version}" error and the
"Failed to find root task" error. -/
inductive WireError where
  | selfDep (name version : String)
  | rootNotFound
deriving DecidableEq

/-- `jobs.iter().filter(|j| j.1.jobdef.dependencies.contains(job.uuid))`:
the jobs that depend on `J`, in DAG order. -/
def dependentsOf (jobs : List WJob) (J : WJob) : List WJob :=
  jobs.filter (fun j => j.dependencies.contains J.uuid)

/-- The closure mapped over the dependents of `J` in run_tree: a dependent
with the same uuid as `J` yields the self-dependency error (named after `J`'s
package), otherwise that dependent's sender. -/
def senderOrSelfErr (J j : WJob) : Except WireError SenderRef :=
  if j.uuid == J.uuid then .error (.selfDep J.name J.version)
  else .ok (.toJob j.uuid)

/-- `collect::<Result<Vec<Sender<JobResult>>>>()?` over `J`'s dependents. -/
def dependentSenders (jobs : List WJob) (J : WJob) : Except WireError (List SenderRef) :=
  mapME (senderOrSelfErr J) (dependentsOf jobs J)

/-- One iteration of the sender-association loop: the slot stored in `job.3`
(`None` when the job has no dependents, making it a root candidate). -/
def jobSlot (jobs : List WJob) (J : WJob) : Except WireError (Option (List SenderRef)) :=
  match dependentSenders jobs J with
  | .error e => .error e
  | .ok l => .ok (if l.isEmpty then none else some l)

/-- The whole sender-association loop of run_tree, processing jobs in DAG
order and stopping at the first self-dependency error. -/
def wireSlots (jobs : List WJob) : Except WireError (List (Option (List SenderRef))) :=
  mapME (jobSlot jobs) jobs

/-- The wiring stage of run_tree: associate each job with its outbound
senders, then find the FIRST job whose slot is `None` and treat it as root
(error "Failed to find root task" when there is none); every job with a
`None` slot has its sender list replaced by `[root_sender]`
(`unwrap_or_else(|| vec![root_sender.clone()])`). Returns the root job's
uuid and each job paired with its outbound senders. All of this happens
before any `JobTask` is spawned. -/
def runTreeWiring (jobs : List WJob) :
    Except WireError (Nat × List (WJob × List SenderRef)) :=
  match wireSlots jobs with
  | .error e => .error e
  | .ok slots =>
    match (jobs.zip slots).find? (fun p => p.2.isNone) with
    | none => .error .rootNotFound
    | some p =>
        .ok (p.1.uuid, (jobs.zip slots).map (fun q => (q.1, q.2.getD [SenderRef.toRoot])))

/-- The value of a job's slot when no self-dependency error fires. -/
def wireSlotFn (jobs : List WJob) (J : WJob) : Option (List SenderRef) :=
  let l := (dependentsOf jobs J).map (fun j => SenderRef.toJob j.uuid)
  if l.isEmpty then none else some l

/-- Uuids identify jobs uniquely (the spec invariant "ids are unique within
a DAG"). -/
def UuidInj (jobs : List WJob) : Prop :=
  ∀ a ∈ jobs, ∀ b ∈ jobs, a.uuid = b.uuid → a = b

/-! ### Wiring helper lemmas -/

theorem mem_dependentsOf {jobs : List WJob} {J j : WJob} :
    j ∈ dependentsOf jobs J ↔ j ∈ jobs ∧ J.uuid ∈ j.dependencies := by
  simp [dependentsOf, List.mem_filter, List.contains, List.elem_iff]

theorem mapME_ok_of_all {α β ε : Type} {f : α → Except ε β} {g : α → β} :
    ∀ l : List α, (∀ x ∈ l, f x = .ok (g x)) → mapME f l = .ok (l.map g) := by
  intro l
  induction l with
  | nil => intro _; rfl
  | cons x xs ih =>
    intro h
    unfold mapME
    rw [h x (List.mem_cons_self x xs), ih (fun y hy => h y (List.mem_cons_of_mem x hy))]
    rfl

theorem senders_error_of_selfuuid (J : WJob) :
    ∀ l : List WJob, (∃ j ∈ l, j.uuid = J.uuid) →
      mapME (senderOrSelfErr J) l = .error (.selfDep J.name J.version) := by
  intro l
  induction l with
  | nil => rintro ⟨j, hj, _⟩; exact absurd hj (List.not_mem_nil j)
  | cons x xs ih =>
    rintro ⟨j, hj, hju⟩
    by_cases hx : x.uuid = J.uuid
    · unfold mapME
      simp [senderOrSelfErr, hx]
    · have hxs : ∃ j ∈ xs, j.uuid = J.uuid := by
        rcases List.mem_cons.1 hj with rfl | hmem
        · exact absurd hju hx
        · exact ⟨j, hmem, hju⟩
      unfold mapME
      simp [senderOrSelfErr, hx, ih hxs]

theorem senders_ok_of_no_selfuuid (J : WJob) :
    ∀ l : List WJob, (∀ j ∈ l, j.uuid ≠ J.uuid) →
      mapME (senderOrSelfErr J) l = .ok (l.map (fun j => SenderRef.toJob j.uuid)) :=
  fun l h => mapME_ok_of_all l (fun j hj => by simp [senderOrSelfErr, h j hj])

theorem jobSlot_error_of_selfdep {jobs : List WJob} {J : WJob} (hJ : J ∈ jobs)
    (hsd : J.uuid ∈ J.dependencies) :
    jobSlot jobs J = .error (.selfDep J.name J.version) := by
  have htrig : ∃ j ∈ dependentsOf jobs J, j.uuid = J.uuid :=
    ⟨J, mem_dependentsOf.2 ⟨hJ, hsd⟩, rfl⟩
  unfold jobSlot dependentSenders
  rw [senders_error_of_selfuuid J (dependentsOf jobs J) htrig]

theorem jobSlot_ok_of_not_selfdep {jobs : List WJob} (inj : UuidInj jobs) {J : WJob}
    (hJ : J ∈ jobs) (h : J.uuid ∉ J.dependencies) :
    jobSlot jobs J = .ok (wireSlotFn jobs J) := by
  have hall : ∀ j ∈ dependentsOf jobs J, j.uuid ≠ J.uuid := by
    intro j hj hju
    obtain ⟨hjm, hdep⟩ := mem_dependentsOf.1 hj
    have hjJ : j = J := inj j hjm J hJ hju
    subst hjJ
    exact h hdep
  unfold jobSlot dependentSenders
  rw [senders_ok_of_no_selfuuid J (dependentsOf jobs J) hall]
  rfl

theorem wireSlots_error_of_selfdep (jobs : List WJob) (inj : UuidInj jobs) :
    ∀ l : List WJob, (∀ x ∈ l, x ∈ jobs) → (∃ J ∈ l, J.uuid ∈ J.dependencies) →
      ∃ J ∈ l, J.uuid ∈ J.dependencies ∧
        mapME (jobSlot jobs) l = .error (.selfDep J.name J.version) := by
  intro l
  induction l with
  | nil => rintro _ ⟨J, hJ, _⟩; exact absurd hJ (List.not_mem_nil J)
  | cons x xs ih =>
    rintro hsub ⟨J, hJ, hsd⟩
    by_cases hx : x.uuid ∈ x.dependencies
    · refine ⟨x, List.mem_cons_self x xs, hx, ?_⟩
      unfold mapME
      rw [jobSlot_error_of_selfdep (hsub x (List.mem_cons_self x xs)) hx]
    · have hJxs : ∃ J ∈ xs, J.uuid ∈ J.dependencies := by
        rcases List.mem_cons.1 hJ with rfl | hmem
        · exact absurd hsd hx
        · exact ⟨J, hmem, hsd⟩
      obtain ⟨K, hK, hKsd, herr⟩ :=
        ih (fun y hy => hsub y (List.mem_cons_of_mem x hy)) hJxs
      refine ⟨K, List.mem_cons_of_mem x hK, hKsd, ?_⟩
      unfold mapME
      rw [jobSlot_ok_of_not_selfdep inj (hsub x (List.mem_cons_self x xs)) hx, herr]

theorem find_zip_map {α β : Type} (g : α → β) (q : β → Bool) :
    ∀ l : List α,
      (l.zip (l.map g)).find? (fun p => q p.2) =
        (l.find? (fun x => q (g x))).map (fun x => (x, g x)) := by
  intro l
  induction l with
  | nil => rfl
  | cons x xs ih =>
    simp only [List.map_cons, List.zip_cons_cons, List.find?_cons]
    cases h : q (g x)
    · simpa [h] using ih
    · simp [h]

/-! ## EndpointScheduler::select_free_endpoint (src/endpoint/scheduler.rs) -/

/-- `collect::<Result<Vec<_>>>()` over the completed load-query futures:
each element is one endpoint's `number_of_running_containers()` result paired
with the endpoint (modelled by its enumeration index), in the order the
`FuturesUnordered` stream yielded it; any query error fails the whole
collection. -/
def collectLoads : List (Except String Nat × Nat) → Except String (List (Nat × Nat))
  | [] => .ok []
  | (r, i) :: rs =>
    match r with
    | .error e => .error e
    | .ok u =>
      match collectLoads rs with
      | .error e => .error e
      | .ok rest => .ok ((u, i) :: rest)

/-- The comparator `tpla.0.cmp(&tplb.0)` of `select_free_endpoint`:
`Less` exactly when the first load is smaller. -/
def loadLt (a b : Nat × Nat) : Bool := decide (a.1 < b.1)

/-- `select_free_endpoint`, parameterized by the completion order of the
concurrent poll: `arrived` lists the per-endpoint query results in the
(nondeterministic) order the `FuturesUnordered` stream yields them — in an
actual run, some permutation of the enumerated endpoint list. The collected
results are sorted ascending by load (`sorted_by` is stable, so ties keep
completion order) and the first endpoint is taken. The result `none` models
the `loop` spinning forever when the endpoint list is empty. -/
def select_free_endpoint (arrived : List (Except String Nat × Nat)) :
    Except String (Option Nat) :=
  match collectLoads arrived with
  | .error e => .error e
  | .ok endpoints => .ok (((sortedBy loadLt endpoints).map (fun tpl => tpl.2)).head?)

/-- The endpoint list in enumeration order: each endpoint's query result
paired with its enumeration index (starting at `k`). The completion order of
an actual run is some permutation of this list. -/
def enumEndpoints (k : Nat) : List (Except String Nat) → List (Except String Nat × Nat)
  | [] => []
  | r :: rs => (r, k) :: enumEndpoints (k + 1) rs

/-- Minimum of a load list. -/
def minLoad : List Nat → Option Nat
  | [] => none
  | x :: xs =>
    match minLoad xs with
    | none => some x
    | some m => some (Nat.min x m)

/-- Modelled from the spec: "order ascending by reported load with ties
broken by enumeration order; pick the first" — i.e. the first index
attaining the minimal load. This is the spec's claimed selection, contrasted
with the code's completion-order tie-break. -/
def specSelectedIndex : List Nat → Option Nat
  | [] => none
  | x :: xs =>
    match minLoad xs with
    | none => some 0
    | some m => if x ≤ m then some 0 else (specSelectedIndex xs).map (fun j => j + 1)

/-- The endpoint the code's pipeline selects: the endpoint of the first pair,
in completion order, whose load attains the minimum of all reported loads. -/
def firstMinIndex (pairs : List (Nat × Nat)) : Option Nat :=
  match minLoad (pairs.map (fun p => p.1)) with
  | none => none
  | some m => (pairs.find? (fun p => p.1 == m)).map (fun p => p.2)

/-! ### Scheduler helper lemmas -/

theorem head?_insertSorted {α : Type} (lt : α → α → Bool) (x : α) :
    ∀ l : List α,
      (insertSorted lt x l).head? =
        some (match l.head? with
          | none => x
          | some y => if lt y x then y else x) := by
  intro l
  cases l with
  | nil => rfl
  | cons y ys =>
    cases h : lt y x <;> simp [insertSorted, h]

theorem head?_sortedBy {α : Type} (lt : α → α → Bool) :
    ∀ l : List α, (sortedBy lt l).head? = firstByLt lt l := by
  intro l
  induction l with
  | nil => rfl
  | cons x xs ih =>
    unfold sortedBy firstByLt
    rw [head?_insertSorted lt x (sortedBy lt xs), ih]
    cases h : firstByLt lt xs with
    | none => simp [h]
    | some q => cases h2 : lt q x <;> simp [h, h2]

theorem firstByLt_cons {α : Type} (lt : α → α → Bool) (x : α) (l : List α) :
    firstByLt lt (x :: l) =
      match firstByLt lt l with
      | none => some x
      | some q => if lt q x then some q else some x := by
  cases h : firstByLt lt l <;> simp [firstByLt, h]

theorem minLoad_cons (x : Nat) (xs : List Nat) :
    minLoad (x :: xs) =
      match minLoad xs with
      | none => some x
      | some m => some (Nat.min x m) := by
  cases h : minLoad xs <;> simp [minLoad, h]

theorem collectLoads_map_ok :
    ∀ pairs : List (Nat × Nat),
      collectLoads (pairs.map (fun p => (Except.ok p.1, p.2))) = .ok pairs := by
  intro pairs
  induction pairs with
  | nil => rfl
  | cons p ps ih =>
    simp only [List.map_cons]
    unfold collectLoads
    rw [ih]

theorem collectLoads_error_of_mem :
    ∀ (arrived : List (Except String Nat × Nat)) (e : String) (i : Nat),
      (Except.error e, i) ∈ arrived → ∃ f, collectLoads arrived = .error f := by
  intro arrived
  induction arrived with
  | nil => intro e i h; exact absurd h (List.not_mem_nil _)
  | cons r rs ih =>
    intro e i h
    rcases r with ⟨re, ri⟩
    rcases re with e' | u
    · exact ⟨e', rfl⟩
    · have hmem : (Except.error e, i) ∈ rs := by
        rcases List.mem_cons.1 h with h1 | h2
        · exact absurd h1 (by simp)
        · exact h2
      obtain ⟨f, hf⟩ := ih e i hmem
      refine ⟨f, ?_⟩
      unfold collectLoads
      rw [hf]

theorem minLoad_eq_none : ∀ l : List Nat, minLoad l = none → l = [] := by
  intro l h
  cases l with
  | nil => rfl
  | cons x xs =>
    rw [minLoad_cons] at h
    cases h2 : minLoad xs <;> simp [h2] at h

theorem minLoad_mem : ∀ (l : List Nat) (m : Nat), minLoad l = some m → m ∈ l := by
  intro l
  induction l with
  | nil => intro m h; exact absurd h (by simp [minLoad])
  | cons x xs ih =>
    intro m h
    rw [minLoad_cons] at h
    cases hm : minLoad xs with
    | none =>
      simp only [hm, Option.some.injEq] at h
      rw [← h]
      exact List.mem_cons_self x xs
    | some m' =>
      simp only [hm, Option.some.injEq] at h
      rcases Nat.le_total x m' with hle | hle
      · have hx : Nat.min x m' = x := Nat.min_eq_left hle
        rw [← h, hx]
        exact List.mem_cons_self x xs
      · have hx : Nat.min x m' = m' := Nat.min_eq_right hle
        rw [← h, hx]
        exact List.mem_cons_of_mem x (ih m' hm)

theorem firstByLt_eq_first_min :
    ∀ pairs : List (Nat × Nat),
      firstByLt loadLt pairs =
        match minLoad (pairs.map (fun p => p.1)) with
        | none => none
        | some m => pairs.find? (fun p => p.1 == m) := by
  intro pairs
  induction pairs with
  | nil => rfl
  | cons p ps ih =>
    rw [firstByLt_cons, ih]
    cases hm : minLoad (ps.map (fun p => p.1)) with
    | none =>
      have hps : ps = [] := List.map_eq_nil_iff.1 (minLoad_eq_none _ hm)
      subst hps
      simp [minLoad, minLoad_cons, List.find?_cons]
    | some m =>
      obtain ⟨q, hqmem, hq1⟩ := List.mem_map.1 (minLoad_mem _ m hm)
      obtain ⟨q', hq'⟩ : ∃ q', ps.find? (fun p => p.1 == m) = some q' := by
        cases hf : ps.find? (fun p => p.1 == m) with
        | none =>
          have hno := List.find?_eq_none.1 hf q hqmem
          rw [hq1] at hno
          simp at hno
        | some q' => exact ⟨q', rfl⟩
      have hq'1 : q'.1 = m := by
        have := List.find?_some hq'
        simpa using this
      simp only [List.map_cons, minLoad_cons, hm, hq']
      by_cases hcmp : m < p.1
      · have hlt : loadLt q' p = true := by
          simp only [loadLt, hq'1, decide_eq_true_eq]
          exact hcmp
        have hmin : Nat.min p.1 m = m := Nat.min_eq_right (Nat.le_of_lt hcmp)
        rw [hmin]
        rw [List.find?_cons_of_neg _ (by simp; omega), hq']
        simp [hlt]
      · have hle : p.1 ≤ m := Nat.le_of_not_lt hcmp
        have hlf : loadLt q' p = false := by
          simp only [loadLt, hq'1, decide_eq_false_iff_not]
          omega
        have hmin : Nat.min p.1 m = p.1 := Nat.min_eq_left hle
        rw [hmin]
        rw [List.find?_cons_of_pos _ (by simp)]
        simp [hlf]

/-! ## Claim theorems (first group) -/

/-- C1: Orchestrator.run never partially succeeds. If the single message
drained from the root receiver is `Ok(map)`, the result is the flattening of
the map's values together with an empty error map; if it is `Err(map)`, the
result is an empty artifact vector with that error map; a closed channel
(no message) is a fatal error. Consequently the artifact vector is non-empty
only if the error map is empty. -/
theorem orchestrator_run_final_message :
    runTreeCollect none = .error ("No result received...") ∧
    (∀ m, runTreeCollect (some (Msg.ok m)) = .ok ((m.map (fun tpl => tpl.2)).flatten, [])) ∧
    (∀ e, runTreeCollect (some (Msg.err e)) = .ok ([], e)) ∧
    (∀ msg, match runTreeCollect msg with
      | .ok p => p.1 = [] ∨ p.2 = []
      | .error _ => True) := by
  refine ⟨rfl, fun m => rfl, fun e => rfl, fun msg => ?_⟩
  match msg with
  | none => trivial
  | some (Msg.ok m) => exact Or.inr rfl
  | some (Msg.err e) => exact Or.inl rfl

/-- C9: `PackageVersionConstraint::matches` is total on `Any`, `Latest` and
`Exact` (returning `Ok(True)`, `Ok(Undecided)`, and the equality test of the
versions respectively) and hits the `unimplemented!()` branch for every input
on `LowerAs`, `HigherAs` and `InRange`. -/
theorem package_version_constraint_matches_cases :
    ∀ v : String,
      PackageVersionConstraint.matches .any v = .returns (.ok .vTrue) ∧
      PackageVersionConstraint.matches .latest v = .returns (.ok .vUndecided) ∧
      (∀ w, PackageVersionConstraint.matches (.exact w) v =
        .returns (.ok (if v = w then .vTrue else .vFalse))) ∧
      (∀ w, PackageVersionConstraint.matches (.lowerAs w) v = .unimplementedPanic) ∧
      (∀ w, PackageVersionConstraint.matches (.higherAs w) v = .unimplementedPanic) ∧
      (∀ w1 w2, PackageVersionConstraint.matches (.inRange w1 w2) v = .unimplementedPanic) := by
  intro v
  refine ⟨rfl, rfl, fun w => ?_, fun w => rfl, fun w => rfl, fun w1 w2 => rfl⟩
  by_cases h : v = w
  · simp [PackageVersionConstraint.matches, packageVersionMatchFrom, h]
  · simp [PackageVersionConstraint.matches, packageVersionMatchFrom, h]

/-- C10: the Debug formatting of `DbConnectionConfig` is independent of the
`database_password` field, while the `Into<String>` connection URI does embed
the actual password (two configurations differing only in the password yield
different URIs). -/
theorem debug_hides_password_uri_embeds_it :
    (∀ (c : DbConnectionConfig) (p : String), debugFormat (withPassword c p) = debugFormat c) ∧
    (∃ (c : DbConnectionConfig) (p1 p2 : String),
      intoConnectionString (withPassword c p1) ≠ intoConnectionString (withPassword c p2)) := by
  constructor
  · intro c p
    rfl
  · refine ⟨⟨"h", "5432", "u", "x", "db"⟩, "a", "b", ?_⟩
    decide

/-- C7: every DAG containing a job that lists its own uuid among its
dependencies fails during wiring (before any JobTask is constructed, hence
before any job executes or the scheduler is invoked) with the
"Package does depend on itself" error naming that job's package name and
version. -/
theorem self_dependency_fails_wiring :
    ∀ jobs : List WJob, (jobs.map (fun j => j.uuid)).Nodup →
      (∃ J ∈ jobs, J.uuid ∈ J.dependencies) →
      ∃ J ∈ jobs, J.uuid ∈ J.dependencies ∧
        runTreeWiring jobs = .error (.selfDep J.name J.version) := by
  intro jobs hnd hex
  have inj : UuidInj jobs := fun a ha b hb hab =>
    List.inj_on_of_nodup_map hnd ha hb hab
  obtain ⟨J, hJ, hsd, herr⟩ :=
    wireSlots_error_of_selfdep jobs inj jobs (fun x hx => hx) hex
  refine ⟨J, hJ, hsd, ?_⟩
  unfold runTreeWiring wireSlots
  rw [herr]

/-- C7 witness: a single job depending on itself makes wiring fail with the
self-dependency error naming its package. -/
theorem self_dependency_fails_wiring_witness :
    ∃ J ∈ [(⟨1, "pkg", "1.0", [1]⟩ : WJob)], J.uuid ∈ J.dependencies ∧
      runTreeWiring [(⟨1, "pkg", "1.0", [1]⟩ : WJob)] =
        .error (.selfDep J.name J.version) :=
  self_dependency_fails_wiring [⟨1, "pkg", "1.0", [1]⟩] (by decide)
    ⟨⟨1, "pkg", "1.0", [1]⟩, by decide, by decide⟩

/-- C3 counterexample: a DAG with TWO roots (two jobs, neither with any
dependent) does not make wiring fail; the first rootless job is picked as
root and both are wired to the root channel. This refutes the claim that
more than one root causes Orchestrator.run to fail. -/
theorem two_roots_wiring_succeeds :
    runTreeWiring [⟨1, "a", "1", []⟩, ⟨2, "b", "1", []⟩] =
      .ok (1, [(⟨1, "a", "1", []⟩, [SenderRef.toRoot]),
               (⟨2, "b", "1", []⟩, [SenderRef.toRoot])]) := rfl

/-- C3 amended: with unique uuids and no self-dependency, the wiring stage
fails (with "Failed to find root task", before any JobTask executes) exactly
when NO job has an empty set of dependents; when at least one job has no
dependents, wiring succeeds — even if several jobs are rootless, the first
of them is silently treated as the root. -/
theorem wiring_fails_iff_no_root :
    ∀ jobs : List WJob, (jobs.map (fun j => j.uuid)).Nodup →
      (∀ J ∈ jobs, J.uuid ∉ J.dependencies) →
      ((∃ J ∈ jobs, ∀ j ∈ jobs, J.uuid ∉ j.dependencies) →
        (runTreeWiring jobs).isOk = true) ∧
      ((∀ J ∈ jobs, ∃ j ∈ jobs, J.uuid ∈ j.dependencies) →
        runTreeWiring jobs = .error .rootNotFound) := by
  intro jobs hnd hnsd
  have inj : UuidInj jobs := fun a ha b hb hab =>
    List.inj_on_of_nodup_map hnd ha hb hab
  have hslots : wireSlots jobs = .ok (jobs.map (wireSlotFn jobs)) :=
    mapME_ok_of_all jobs (fun J hJ => jobSlot_ok_of_not_selfdep inj hJ (hnsd J hJ))
  constructor
  · rintro ⟨J, hJ, hroot⟩
    have hslotJ : wireSlotFn jobs J = none := by
      have hdep : dependentsOf jobs J = [] := by
        rcases h : dependentsOf jobs J with _ | ⟨j, js⟩
        · rfl
        · have hj : j ∈ dependentsOf jobs J := h ▸ List.mem_cons_self j js
          obtain ⟨hjm, hjd⟩ := mem_dependentsOf.1 hj
          exact absurd hjd (hroot j hjm)
      unfold wireSlotFn
      rw [hdep]
      rfl
    simp only [runTreeWiring, hslots]
    rw [find_zip_map (wireSlotFn jobs) Option.isNone jobs]
    rcases hf : jobs.find? (fun x => (wireSlotFn jobs x).isNone) with _ | x
    · have hc := List.find?_eq_none.1 hf J hJ
      rw [hslotJ] at hc
      exact absurd rfl hc
    · rfl
  · intro hall
    have hnone : ∀ x ∈ jobs, ¬ ((wireSlotFn jobs x).isNone = true) := by
      intro x hx
      obtain ⟨j, hjm, hjd⟩ := hall x hx
      have hmem : j ∈ dependentsOf jobs x := mem_dependentsOf.2 ⟨hjm, hjd⟩
      rcases h : dependentsOf jobs x with _ | ⟨a, as⟩
      · exact absurd h (List.ne_nil_of_mem hmem)
      · unfold wireSlotFn
        rw [h]
        simp
    have hfind : jobs.find? (fun x => (wireSlotFn jobs x).isNone) = none :=
      List.find?_eq_none.2 hnone
    simp only [runTreeWiring, hslots]
    rw [find_zip_map (wireSlotFn jobs) Option.isNone jobs, hfind]
    rfl

/-- C3 amended, witness: a two-job cycle (each the other's dependent) has no
root and makes wiring fail with the root-not-found error. -/
theorem wiring_fails_iff_no_root_witness :
    runTreeWiring [(⟨1, "a", "1", [2]⟩ : WJob), (⟨2, "b", "1", [1]⟩ : WJob)] =
      .error .rootNotFound :=
  (wiring_fails_iff_no_root [⟨1, "a", "1", [2]⟩, ⟨2, "b", "1", [1]⟩]
      (by decide) (by decide)).2
    (by
      intro J hJ
      rcases List.mem_cons.1 hJ with rfl | hJ2
      · exact ⟨⟨2, "b", "1", [1]⟩, by decide, by decide⟩
      · rcases List.mem_cons.1 hJ2 with rfl | hJ3
        · exact ⟨⟨1, "a", "1", [2]⟩, by decide, by decide⟩
        · exact absurd hJ3 (List.not_mem_nil J))

/-- C8 counterexample: the tie-break is NOT by enumeration order. Two
endpoints (enumeration indices 0 and 1) both report load 0; when the
concurrently polled futures complete in the order endpoint 1 first,
endpoint 0 second — a permutation of the enumerated list — the stable sort
keeps completion order and endpoint 1 is selected, whereas the claimed
enumeration-order tie-break selects endpoint 0. -/
theorem tie_break_follows_completion_order :
    select_free_endpoint [(Except.ok 0, 1), (Except.ok 0, 0)] = .ok (some 1) ∧
    [((Except.ok 0 : Except String Nat), (1 : Nat)), (Except.ok 0, 0)].Perm
      (enumEndpoints 0 [Except.ok 0, Except.ok 0]) ∧
    specSelectedIndex [0, 0] = some 0 :=
  ⟨rfl, List.Perm.swap (Except.ok 0, 0) (Except.ok 0, 1) [], rfl⟩

/-- C8 amended: for EVERY completion order of the concurrent load poll,
`select_free_endpoint` returns the endpoint with the minimal reported load,
ties broken by the order in which the queries completed (the first minimal
pair of the collected, stably sorted results); and whenever any endpoint
errors during the load query, the whole call fails. -/
theorem endpoint_selection_min_load_any_completion :
    (∀ pairs : List (Nat × Nat),
      select_free_endpoint (pairs.map (fun p => (Except.ok p.1, p.2))) =
        .ok (firstMinIndex pairs)) ∧
    (∀ (arrived : List (Except String Nat × Nat)) (e : String) (i : Nat),
      (Except.error e, i) ∈ arrived →
        ∃ f, select_free_endpoint arrived = .error f) := by
  constructor
  · intro pairs
    unfold select_free_endpoint
    rw [collectLoads_map_ok pairs]
    simp only [List.head?_map, head?_sortedBy, firstByLt_eq_first_min]
    unfold firstMinIndex
    cases hm : minLoad (pairs.map (fun p => p.1)) <;> simp [hm]
  · intro arrived e i h
    obtain ⟨f, hf⟩ := collectLoads_error_of_mem arrived e i h
    refine ⟨f, ?_⟩
    unfold select_free_endpoint
    rw [hf]

/-- C8 amended, witness: with a healthy endpoint and a failing one among the
completed queries, the whole selection fails. -/
theorem endpoint_selection_min_load_any_completion_witness :
    ∃ f, select_free_endpoint [(Except.ok 3, 0), (Except.error ("query failed"), 1)] =
      .error f :=
  endpoint_selection_min_load_any_completion.2
    [(Except.ok 3, 0), (Except.error ("query failed"), 1)] "query failed" 1
    (List.mem_cons_of_mem _ (List.mem_cons_self _ _))

/-- C2: evaluation of the reuse-sort at a concrete input. With a staging-store
candidate and a release-store candidate, `sorted_by(|..| r1.cmp(&r2))` puts
the candidate that is NOT in the staging store first (ascending order on
booleans with false < true), so the staging candidate comes last — the
opposite of the claimed (and comment-documented) staging-first order. -/
theorem reuse_sort_puts_non_staging_candidate_first :
    sortedBy (stagingSortLt ⟨0, [("a", "staging/a")]⟩)
        [⟨0, "a"⟩, ⟨1, "b"⟩] = [⟨1, "b"⟩, ⟨0, "a"⟩] ∧
    FullArtifactPath.isInStagingStore ⟨0, "a"⟩ ⟨0, [("a", "staging/a")]⟩ = true ∧
    FullArtifactPath.isInStagingStore ⟨1, "b"⟩ ⟨0, [("a", "staging/a")]⟩ = false :=
  ⟨rfl, rfl, rfl⟩

/-- C5: with at least one outbound sender, every JobTask run sends either
nothing (own fatal error), or a single error map on exactly the first
outbound sender, or one identical success map on every outbound sender. -/
theorem failure_single_success_broadcast :
    ∀ (t : JobTaskModel) (msgs : List Msg)
      (findRes : Except String (List FullArtifactPath)) (staging release : Store)
      (build : Except String Unit) (sched : Except String (Except String (List String))),
      1 ≤ t.nSenders →
      (∃ e, (jobTaskRun t msgs findRes staging release build sched).sends = [] ∧
            (jobTaskRun t msgs findRes staging release build sched).ret = .error e) ∨
      (∃ em, (jobTaskRun t msgs findRes staging release build sched).sends
               = [(0, Msg.err em)]) ∨
      (∃ m, (jobTaskRun t msgs findRes staging release build sched).sends
              = (List.range t.nSenders).map (fun i => (i, Msg.ok m))) := by
  intro t msgs findRes staging release build sched _
  unfold jobTaskRun
  rcases hr : receiveLoop t.deps msgs [] [] with missing | re | rd
  · exact Or.inl ⟨_, rfl, rfl⟩
  · exact Or.inr (Or.inl ⟨re, rfl⟩)
  · rcases findRes with e | cands
    · exact Or.inl ⟨e, rfl, rfl⟩
    · simp only []
      rcases ha : replacementArtifacts cands staging release with _ | ⟨a, as⟩
      · simp only [ha, List.isEmpty_nil, Bool.not_true, Bool.false_eq_true, if_false]
        rcases build with e | u
        · exact Or.inl ⟨e, rfl, rfl⟩
        · rcases sched with e | inner
          · exact Or.inl ⟨e, rfl, rfl⟩
          · rcases inner with e | arts
            · exact Or.inr (Or.inl ⟨_, rfl⟩)
            · exact Or.inr (Or.inr ⟨_, rfl⟩)
      · simp only [ha, List.isEmpty_cons, Bool.not_false, if_true]
        exact Or.inr (Or.inr ⟨_, rfl⟩)

/-- C5 witness: a task with one dependency and one outbound sender that
receives an upstream error forwards exactly one error map on sender 0. -/
theorem failure_single_success_broadcast_witness :
    (∃ e, (jobTaskRun ⟨3, [1], 1⟩ [Msg.err [(1, "boom")]] (.ok []) ⟨0, []⟩ ⟨1, []⟩
             (.ok ()) (.ok (.ok []))).sends = [] ∧
          (jobTaskRun ⟨3, [1], 1⟩ [Msg.err [(1, "boom")]] (.ok []) ⟨0, []⟩ ⟨1, []⟩
             (.ok ()) (.ok (.ok []))).ret = .error e) ∨
    (∃ em, (jobTaskRun ⟨3, [1], 1⟩ [Msg.err [(1, "boom")]] (.ok []) ⟨0, []⟩ ⟨1, []⟩
             (.ok ()) (.ok (.ok []))).sends = [(0, Msg.err em)]) ∨
    (∃ m, (jobTaskRun ⟨3, [1], 1⟩ [Msg.err [(1, "boom")]] (.ok []) ⟨0, []⟩ ⟨1, []⟩
             (.ok ()) (.ok (.ok []))).sends
            = (List.range (1 : Nat)).map (fun i => (i, Msg.ok m))) :=
  failure_single_success_broadcast ⟨3, [1], 1⟩ [Msg.err [(1, "boom")]] (.ok [])
    ⟨0, []⟩ ⟨1, []⟩ (.ok ()) (.ok (.ok [])) (by decide)

/-- C6: if the receive phase completes and the reuse pipeline yields a
non-empty artifact list, the task inserts `(uuid → artifacts)` into the
accumulated dependency map, broadcasts that map on every outbound sender,
finishes its bar with the reuse message, exits with `Ok(())`, and the
scheduler is never invoked. -/
theorem reuse_short_circuit :
    ∀ (t : JobTaskModel) (msgs : List Msg) (cands : List FullArtifactPath)
      (staging release : Store) (build : Except String Unit)
      (sched : Except String (Except String (List String)))
      (rd : List (Nat × List String)),
      receiveLoop t.deps msgs [] [] = .ready rd →
      replacementArtifacts cands staging release ≠ [] →
      jobTaskRun t msgs (.ok cands) staging release build sched =
        { sends := (List.range t.nSenders).map
            (fun i => (i, Msg.ok (insertA rd t.uuid (replacementArtifacts cands staging release)))),
          ret := .ok (), scheduled := false, barFinish := some .reusingArtifact } := by
  intro t msgs cands staging release build sched rd hr hne
  unfold jobTaskRun
  rw [hr]
  rcases ha : replacementArtifacts cands staging release with _ | ⟨a, as⟩
  · exact absurd ha hne
  · simp [ha]

/-- C6 witness: a dependency-free task whose catalog candidate resolves in the
staging store reuses it, broadcasting to both outbound senders without
scheduling. -/
theorem reuse_short_circuit_witness :
    jobTaskRun ⟨5, [], 2⟩ [] (.ok [⟨0, "a"⟩]) ⟨0, [("a", "s/a")]⟩ ⟨1, []⟩
        (.ok ()) (.error ("never consulted")) =
      { sends := [(0, Msg.ok [(5, ["s/a"])]), (1, Msg.ok [(5, ["s/a"])])],
        ret := .ok (), scheduled := false, barFinish := some .reusingArtifact } :=
  reuse_short_circuit ⟨5, [], 2⟩ [] [⟨0, "a"⟩] ⟨0, [("a", "s/a")]⟩ ⟨1, []⟩
    (.ok ()) (.error ("never consulted")) [] rfl (by decide)

/-- C4 counterexample: a scheduler error surfaced by `schedule_job` itself
(for example a failed endpoint load query, propagated through the first `?`
of `schedule_job(..).await?.run().await?`) is NOT entered into any error map —
the task sends nothing downstream and returns the error, which
`run_tree`'s `jobs_result?` turns into a fatal abort of the orchestration. -/
theorem schedule_error_aborts_fatally :
    (jobTaskRun ⟨7, [], 1⟩ [] (.ok []) ⟨0, []⟩ ⟨1, []⟩ (.ok ())
        (.error ("endpoint load query failed"))).sends = [] ∧
    (jobTaskRun ⟨7, [], 1⟩ [] (.ok []) ⟨0, []⟩ ⟨1, []⟩ (.ok ())
        (.error ("endpoint load query failed"))).ret
      = .error ("endpoint load query failed") ∧
    (jobTaskRun ⟨7, [], 1⟩ [] (.ok []) ⟨0, []⟩ ⟨1, []⟩ (.ok ())
        (.error ("endpoint load query failed"))).scheduled = true :=
  ⟨rfl, rfl, rfl⟩

/-- C4 amended: after a completed receive phase with no reusable artifacts,
an error reported by the endpoint driver in the job handle's result is
attributed to the job — an error map `{uuid → e}` is sent on the first
outbound sender and the task exits `Ok` — whereas an error of `schedule_job`
itself (e.g. a failed load query) is propagated as the task's own fatal
error with nothing sent downstream. -/
theorem scheduler_error_attribution :
    ∀ (t : JobTaskModel) (msgs : List Msg) (cands : List FullArtifactPath)
      (staging release : Store) (rd : List (Nat × List String)) (e : String),
      receiveLoop t.deps msgs [] [] = .ready rd →
      replacementArtifacts cands staging release = [] →
      (jobTaskRun t msgs (.ok cands) staging release (.ok ()) (.ok (.error e)) =
        { sends := [(0, Msg.err [(t.uuid, e)])], ret := .ok (),
          scheduled := true, barFinish := none }) ∧
      (jobTaskRun t msgs (.ok cands) staging release (.ok ()) (.error e) =
        { sends := [], ret := .error e, scheduled := true, barFinish := none }) := by
  intro t msgs cands staging release rd e hr ha
  constructor
  · unfold jobTaskRun
    rw [hr]
    simp only [ha, List.isEmpty_nil, Bool.not_true, Bool.false_eq_true, if_false]
    rfl
  · unfold jobTaskRun
    rw [hr]
    simp only [ha, List.isEmpty_nil, Bool.not_true, Bool.false_eq_true, if_false]

/-- C4 amended, witness: a dependency-free task with an empty catalog result;
the driver-reported error lands in the error map on sender 0, while the
`schedule_job` error is returned fatally. -/
theorem scheduler_error_attribution_witness :
    (jobTaskRun ⟨7, [], 1⟩ [] (.ok []) ⟨0, []⟩ ⟨1, []⟩ (.ok ())
        (.ok (.error ("driver failed"))) =
      { sends := [(0, Msg.err [(7, "driver failed")])], ret := .ok (),
        scheduled := true, barFinish := none }) ∧
    (jobTaskRun ⟨7, [], 1⟩ [] (.ok []) ⟨0, []⟩ ⟨1, []⟩ (.ok ())
        (.error ("driver failed")) =
      { sends := [], ret := .error ("driver failed"), scheduled := true,
        barFinish := none }) :=
  scheduler_error_attribution ⟨7, [], 1⟩ [] [] ⟨0, []⟩ ⟨1, []⟩ [] "driver failed"
    rfl rfl
